import Mathlib

/-!
Verification of the proxy-pool subsystem (Go package `proxypool`).

Shallow embedding conventions:
* Time instants are integers (seconds); `time.Now().Before(t)` becomes
  `now < t` and `time.Now().After(t)` becomes `now > t`.
* `ProxyItem.usedCount` / `maxUseCount` are Go `int64`, modelled as `Int`
  (they only move by `+1` steps from small starting values, so 64-bit
  wrap-around is unreachable in every property considered here).
* Go pointers inside the pool's slice are modelled positionally: the
  collection is a `List ProxyItem` and an item's identity is its index,
  so a mutation through a pointer becomes `List.set` at that index.
* The mutex-protected sequential sections are modelled as pure functions;
  the refresh `TryLock` is modelled by an explicit `inFlight : Bool`
  argument saying whether another refresh currently holds the lock.
* The stored function fields (`fetchFunc`) are passed as an explicit
  `Option FetchFunc` argument; the callbacks (`onProxyGet`, `onRefresh`)
  are modelled by presence flags plus an emitted event trace.
-/

namespace Proxypool

/-- Embedding of `ProxyItem` (proxy entry with usage/expiry state). -/
structure ProxyItem where
  ip : String
  port : String
  usedCount : Int
  maxUseCount : Int
  expireTime : Int
  createTime : Int
  lastUseTime : Int
deriving Repr, DecidableEq, Inhabited

/-- Embedding of `ProxyItem.String()`: the `"ip:port"` identity string. -/
def ProxyItem.string (p : ProxyItem) : String :=
  p.ip ++ ":" ++ p.port

/-- Embedding of `NewProxyItemWithConfig`: fresh item with the given
use limit and `expireTime = now + expireSeconds`; the zero `time.Time`
of the untouched `lastUseTime` field is rendered as `0`. -/
def NewProxyItemWithConfig (now : Int) (ip port : String)
    (maxUseCount expireSeconds : Int) : ProxyItem :=
  { ip := ip
    port := port
    usedCount := 0
    maxUseCount := maxUseCount
    expireTime := now + expireSeconds
    createTime := now
    lastUseTime := 0 }

/-- Embedding of `ProxyItem.IsAvailable`:
`time.Now().Before(p.expireTime) && usedCount < maxUseCount`. -/
def ProxyItem.IsAvailable (p : ProxyItem) (now : Int) : Bool :=
  decide (now < p.expireTime) && decide (p.usedCount < p.maxUseCount)

/-- Embedding of `ProxyItem.IsExpired`: `time.Now().After(p.expireTime)`. -/
def ProxyItem.IsExpired (p : ProxyItem) (now : Int) : Bool :=
  decide (now > p.expireTime)

/-- Embedding of `ProxyItem.IsMaxUsed`: `usedCount >= maxUseCount`. -/
def ProxyItem.IsMaxUsed (p : ProxyItem) : Bool :=
  decide (p.usedCount ≥ p.maxUseCount)

/-- Embedding of `ProxyItem.IncrementUseCount`: the sequential meaning of
the compare-and-swap retry loop.  A single uncontended call reads the
count; if it is at or above the limit it returns `false` without any
mutation, otherwise the CAS succeeds, the count becomes `current + 1`,
the last-use time is recorded, and it returns `true`. -/
def ProxyItem.IncrementUseCount (p : ProxyItem) (now : Int) : Bool × ProxyItem :=
  if p.usedCount ≥ p.maxUseCount then (false, p)
  else (true, { p with usedCount := p.usedCount + 1, lastUseTime := now })

/-- The Go `error` values that the pool code can produce or pass around. -/
inductive GoErr where
  | noAvailableProxy
  | poolNotInit
  | apiURLEmpty
  | fetchFailed (msg : String)
  | setFetchFuncHint
deriving Repr, DecidableEq

/-- Embedding of `ProxyAddr`. -/
structure ProxyAddr where
  ip : String
  port : String
deriving Repr, DecidableEq

/-- The stored fetch function `FetchFunc`: either a batch of addresses or
an arbitrary error value. -/
def FetchFunc := String → Except GoErr (List ProxyAddr)

/-- Observable side effects of pool operations: the synchronous
`p.Refresh()` call made on the empty-pool path of `Get`, the
`go p.Refresh()` goroutine launch, and the two callback invocations
(the `onProxyGetCb` payload is the index of the acquired item). -/
inductive Event where
  | refreshCall
  | goRefresh
  | onRefreshCb (count : Nat) (err : Option GoErr)
  | onProxyGetCb (idx : Nat)
deriving Repr, DecidableEq

/-- Embedding of the `ProxyPool` struct.  The callback function fields are
replaced by presence flags (`nil`-ness is all the control flow reads);
`roundRobinIdx` starts at 0 and is only ever incremented, so it is a
`Nat`. -/
structure ProxyPool where
  proxies : List ProxyItem
  apiURL : String
  maxUseCount : Int
  expireSeconds : Int
  minPoolSize : Int
  hasOnProxyGet : Bool
  hasOnRefresh : Bool
  roundRobinIdx : Nat
deriving Repr, DecidableEq

/-- Embedding of `Config` (the function fields are represented by the
callback presence flags; the fetch function travels separately). -/
structure Config where
  apiURL : String
  maxUseCount : Int
  expireSeconds : Int
  minPoolSize : Int
  hasOnProxyGet : Bool
  hasOnRefresh : Bool
deriving Repr, DecidableEq

/-- Embedding of `New`: each non-positive numeric option is replaced by
its default (5 / 180 / 3) before the pool is built. -/
def New (cfg : Config) : ProxyPool :=
  let cfg1 := if cfg.maxUseCount ≤ 0 then { cfg with maxUseCount := 5 } else cfg
  let cfg2 := if cfg1.expireSeconds ≤ 0 then { cfg1 with expireSeconds := 180 } else cfg1
  let cfg3 := if cfg2.minPoolSize ≤ 0 then { cfg2 with minPoolSize := 3 } else cfg2
  { proxies := []
    apiURL := cfg3.apiURL
    maxUseCount := cfg3.maxUseCount
    expireSeconds := cfg3.expireSeconds
    minPoolSize := cfg3.minPoolSize
    hasOnProxyGet := cfg3.hasOnProxyGet
    hasOnRefresh := cfg3.hasOnRefresh
    roundRobinIdx := 0 }

/-- Embedding of `SetAPIURL`. -/
def ProxyPool.SetAPIURL (p : ProxyPool) (url : String) : ProxyPool :=
  { p with apiURL := url }

/-- Embedding of `SetMaxUseCount` (stores the argument unconditionally). -/
def ProxyPool.SetMaxUseCount (p : ProxyPool) (count : Int) : ProxyPool :=
  { p with maxUseCount := count }

/-- Embedding of `SetExpireSeconds` (stores the argument unconditionally). -/
def ProxyPool.SetExpireSeconds (p : ProxyPool) (seconds : Int) : ProxyPool :=
  { p with expireSeconds := seconds }

/-- Embedding of `SetMinPoolSize` (stores the argument unconditionally). -/
def ProxyPool.SetMinPoolSize (p : ProxyPool) (size : Int) : ProxyPool :=
  { p with minPoolSize := size }

/-- Embedding of `AddProxy`: reject when some existing item has the same
`"ip:port"` string, otherwise append a fresh item built from the pool's
configured defaults.  Returns the Go boolean next to the updated pool. -/
def ProxyPool.AddProxy (p : ProxyPool) (now : Int) (ip port : String) :
    Bool × ProxyPool :=
  let key := ip ++ ":" ++ port
  if p.proxies.any (fun q => q.string == key) then (false, p)
  else (true,
    { p with proxies :=
        p.proxies ++ [NewProxyItemWithConfig now ip port p.maxUseCount p.expireSeconds] })

/-- Embedding of `Refresh`.  `inFlight` models `refreshMu.TryLock`
failing because another refresh holds the lock; `fetchFunc` is the stored
fetch function field.  Returns Go's `error` result, the pool after the
call, and the emitted events. -/
def ProxyPool.Refresh (p : ProxyPool) (now : Int) (inFlight : Bool)
    (fetchFunc : Option FetchFunc) : Option GoErr × ProxyPool × List Event :=
  if p.apiURL == "" && fetchFunc.isNone then (some .apiURLEmpty, p, [])
  else if inFlight then (none, p, [])
  else
    let fetched : Except GoErr (List ProxyAddr) :=
      match fetchFunc with
      | some f => f p.apiURL
      | none => .error .setFetchFuncHint
    match fetched with
    | .error e =>
        (some e, p, if p.hasOnRefresh then [.onRefreshCb 0 (some e)] else [])
    | .ok addrs =>
        let res := addrs.foldl
          (fun (acc : Nat × ProxyPool) (addr : ProxyAddr) =>
            let r := acc.2.AddProxy now addr.ip addr.port
            (if r.1 then acc.1 + 1 else acc.1, r.2))
          (0, p)
        (none, res.2, if p.hasOnRefresh then [.onRefreshCb res.1 none] else [])

/-- Embedding of `cleanupUnsafe`: keep exactly the available items. -/
def ProxyPool.cleanupUnsafe (p : ProxyPool) (now : Int) : ProxyPool :=
  { p with proxies := p.proxies.filter (fun q => q.IsAvailable now) }

/-- The replenishment branch at the top of `Get` (after the cleanup):
empty pool means one synchronous `Refresh` (its events prefixed with the
`refreshCall` marker); a non-empty pool below `minPoolSize` launches
`go p.Refresh()` which is fire-and-forget, so only its launch event is
recorded and the state is untouched within this call. -/
def ProxyPool.getReplenish (p : ProxyPool) (now : Int) (inFlight : Bool)
    (fetchFunc : Option FetchFunc) : ProxyPool × List Event :=
  if p.proxies.length = 0 then
    let r := p.Refresh now inFlight fetchFunc
    (r.2.1, Event.refreshCall :: r.2.2)
  else if (p.proxies.length : Int) < p.minPoolSize then
    (p, [Event.goRefresh])
  else (p, [])

/-- Indices of the available items, in order: the positional rendering of
the `available []*ProxyItem` slice that `Get` builds. -/
def availableIdx (now : Int) (ps : List ProxyItem) : List Nat :=
  (List.range ps.length).filter (fun i => (ps.getD i default).IsAvailable now)

/-- The selection half of `Get` (from building `available` to the
return): round-robin index modulo the available length, cursor advance,
then the `IncrementUseCount` attempt.  `evts` are the events already
emitted by the replenishment branch. -/
def ProxyPool.selectStage (p : ProxyPool) (now : Int) (evts : List Event) :
    Except GoErr (Nat × ProxyItem) × ProxyPool × List Event :=
  let avail := availableIdx now p.proxies
  if avail.length = 0 then (.error .noAvailableProxy, p, evts)
  else
    let idx := p.roundRobinIdx % avail.length
    let j := avail.getD idx 0
    let p3 := { p with roundRobinIdx := p.roundRobinIdx + 1 }
    let sel := p3.proxies.getD j default
    let r := sel.IncrementUseCount now
    if r.1 then
      (.ok (j, r.2), { p3 with proxies := p3.proxies.set j r.2 },
        evts ++ (if p3.hasOnProxyGet then [.onProxyGetCb j] else []))
    else (.error .noAvailableProxy, p3, evts)

/-- Embedding of `Get`: cleanup, replenishment branch, then selection.
The successful result carries the index of the acquired item (its
pointer identity) next to its updated value. -/
def ProxyPool.Get (p : ProxyPool) (now : Int) (inFlight : Bool)
    (fetchFunc : Option FetchFunc) :
    Except GoErr (Nat × ProxyItem) × ProxyPool × List Event :=
  let p1 := p.cleanupUnsafe now
  let rp := p1.getReplenish now inFlight fetchFunc
  rp.1.selectStage now rp.2

/-- Embedding of the `Stats` struct. -/
structure Stats where
  total : Nat
  available : Nat
  expired : Nat
  maxUsed : Nat
deriving Repr, DecidableEq

/-- Embedding of `GetStats`: one snapshot counting the whole collection
and the three per-item predicates. -/
def ProxyPool.GetStats (p : ProxyPool) (now : Int) : Stats :=
  { total := p.proxies.length
    available := p.proxies.countP (fun q => q.IsAvailable now)
    expired := p.proxies.countP (fun q => q.IsExpired now)
    maxUsed := p.proxies.countP (fun q => q.IsMaxUsed) }

/-- `n` sequential calls to `Get` against one pool (fixed instant, fixed
fetch function, no interleaved mutation), collecting each call's result. -/
def ProxyPool.getSeq (p : ProxyPool) (now : Int) (inFlight : Bool)
    (fetchFunc : Option FetchFunc) :
    Nat → List (Except GoErr (Nat × ProxyItem)) × ProxyPool
  | 0 => ([], p)
  | Nat.succ n =>
      let r := p.Get now inFlight fetchFunc
      let rest := r.2.1.getSeq now inFlight fetchFunc n
      (r.1 :: rest.1, rest.2)

/-- C1: a single (uncontended) call to `IncrementUseCount` returns `false`
and mutates nothing when the use-count is at or above the limit, and
otherwise increments the count by exactly one, records the last-use time,
and returns `true`; consequently a count that starts at or below the
limit never ends above it. -/
theorem C1_incrementUseCount_spec (p : ProxyItem) (now : Int) :
    (p.maxUseCount ≤ p.usedCount → p.IncrementUseCount now = (false, p)) ∧
    (p.usedCount < p.maxUseCount →
      p.IncrementUseCount now =
        (true, { p with usedCount := p.usedCount + 1, lastUseTime := now })) ∧
    (p.usedCount ≤ p.maxUseCount →
      ((p.IncrementUseCount now).2).usedCount ≤ p.maxUseCount) := by
  unfold ProxyItem.IncrementUseCount
  refine ⟨fun h => ?_, fun h => ?_, fun h => ?_⟩
  · rw [if_pos (by omega)]
  · rw [if_neg (by omega)]
  · by_cases hc : p.usedCount ≥ p.maxUseCount
    · rw [if_pos hc]
      exact h
    · rw [if_neg hc]
      simp only
      omega

theorem C1_incrementUseCount_spec_witness :
    (ProxyItem.mk "1.2.3.4" "80" 2 5 100 0 0).IncrementUseCount 7 =
      (true, ProxyItem.mk "1.2.3.4" "80" 3 5 100 0 7) ∧
    ((ProxyItem.mk "1.2.3.4" "80" 5 5 100 0 0).IncrementUseCount 7).2.usedCount ≤ 5 :=
  ⟨(C1_incrementUseCount_spec (ProxyItem.mk "1.2.3.4" "80" 2 5 100 0 0) 7).2.1
      (by decide),
   (C1_incrementUseCount_spec (ProxyItem.mk "1.2.3.4" "80" 5 5 100 0 0) 7).2.2
      (by decide)⟩

/-- C4: `IsAvailable` is true exactly when the instant lies strictly
before the expiry and the use-count is strictly below the limit; at or
after the expiry instant the item reports unavailable, and strictly
before it, with uses remaining, it reports available. -/
theorem C4_isAvailable_iff (p : ProxyItem) (now : Int) :
    (p.IsAvailable now = true ↔ now < p.expireTime ∧ p.usedCount < p.maxUseCount) ∧
    (∀ t : Int, p.expireTime ≤ t → p.IsAvailable t = false) ∧
    (now < p.expireTime → p.usedCount < p.maxUseCount → p.IsAvailable now = true) := by
  unfold ProxyItem.IsAvailable
  refine ⟨by simp, fun t ht => ?_, fun h1 h2 => by simp [h1, h2]⟩
  have hnot : ¬ (t < p.expireTime) := by omega
  simp [hnot]

theorem C4_isAvailable_iff_witness :
    ((ProxyItem.mk "1.1.1.1" "80" 0 5 10 0 0).IsAvailable 10 = false) ∧
    ((ProxyItem.mk "1.1.1.1" "80" 0 5 10 0 0).IsAvailable 9 = true) :=
  ⟨(C4_isAvailable_iff (ProxyItem.mk "1.1.1.1" "80" 0 5 10 0 0) 9).2.1 10 (by decide),
   (C4_isAvailable_iff (ProxyItem.mk "1.1.1.1" "80" 0 5 10 0 0) 9).2.2
      (by decide) (by decide)⟩

/-- C5: `AddProxy` returns `false` and leaves the pool unchanged when an
item with the same `"ip:port"` identity exists, otherwise appends exactly
one item built from the pool's configured defaults and returns `true`;
pairwise-distinct (host, port) pairs are preserved, and adding the same
host/port twice to an empty pool yields size 1 with the second call
returning `false`. -/
theorem C5_addProxy_spec :
    (∀ (p : ProxyPool) (now : Int) (ip port : String),
        (∃ q ∈ p.proxies, q.string = ip ++ ":" ++ port) →
        p.AddProxy now ip port = (false, p)) ∧
    (∀ (p : ProxyPool) (now : Int) (ip port : String),
        (∀ q ∈ p.proxies, q.string ≠ ip ++ ":" ++ port) →
        p.AddProxy now ip port =
          (true, { p with proxies := p.proxies ++
              [NewProxyItemWithConfig now ip port p.maxUseCount p.expireSeconds] })) ∧
    (∀ (p : ProxyPool) (now : Int) (ip port : String),
        p.proxies.Pairwise (fun a b => ¬(a.ip = b.ip ∧ a.port = b.port)) →
        (p.AddProxy now ip port).2.proxies.Pairwise
          (fun a b => ¬(a.ip = b.ip ∧ a.port = b.port))) ∧
    (∀ (p0 : ProxyPool) (n1 n2 : Int) (ip port : String), p0.proxies = [] →
        (((p0.AddProxy n1 ip port).2.AddProxy n2 ip port).1 = false ∧
         ((p0.AddProxy n1 ip port).2.AddProxy n2 ip port).2.proxies.length = 1)) := by
  refine ⟨?_, ?_, ?_, ?_⟩
  · rintro p now ip port ⟨q, hq, hs⟩
    unfold ProxyPool.AddProxy
    rw [if_pos]
    exact List.any_eq_true.mpr ⟨q, hq, by simpa using hs⟩
  · intro p now ip port hall
    unfold ProxyPool.AddProxy
    rw [if_neg]
    intro hany
    obtain ⟨q, hq, hs⟩ := List.any_eq_true.mp hany
    exact hall q hq (by simpa using hs)
  · intro p now ip port hpw
    unfold ProxyPool.AddProxy
    by_cases hany : (p.proxies.any (fun q => q.string == ip ++ ":" ++ port)) = true
    · rw [if_pos hany]
      exact hpw
    · rw [if_neg hany]
      simp only
      rw [List.pairwise_append]
      refine ⟨hpw, List.pairwise_singleton _ _, ?_⟩
      intro a ha b hb
      simp only [List.mem_singleton] at hb
      subst hb
      rintro ⟨h1, h2⟩
      apply hany
      refine List.any_eq_true.mpr ⟨a, ha, ?_⟩
      have hip : a.ip = ip := by simpa [NewProxyItemWithConfig] using h1
      have hpt : a.port = port := by simpa [NewProxyItemWithConfig] using h2
      simp [ProxyItem.string, hip, hpt]
  · intro p0 n1 n2 ip port h0
    have h1 : p0.AddProxy n1 ip port =
        (true, { p0 with proxies := p0.proxies ++
            [NewProxyItemWithConfig n1 ip port p0.maxUseCount p0.expireSeconds] }) := by
      unfold ProxyPool.AddProxy
      rw [if_neg]
      simp [h0]
    rw [h1]
    unfold ProxyPool.AddProxy
    rw [if_pos]
    · exact ⟨rfl, by simp [h0]⟩
    · simp [h0, ProxyItem.string, NewProxyItemWithConfig]

theorem C5_addProxy_spec_witness :
    ((ProxyPool.mk [ProxyItem.mk "1.1.1.1" "80" 0 5 10 0 0] "u" 5 180 3 false false 0).AddProxy
        0 "1.1.1.1" "80")
      = (false, ProxyPool.mk [ProxyItem.mk "1.1.1.1" "80" 0 5 10 0 0] "u" 5 180 3 false false 0) ∧
    (((ProxyPool.mk [] "u" 5 180 3 false false 0).AddProxy 0 "1.1.1.1" "80").2.AddProxy
        1 "1.1.1.1" "80").1 = false ∧
    (((ProxyPool.mk [] "u" 5 180 3 false false 0).AddProxy 0 "1.1.1.1" "80").2.AddProxy
        1 "1.1.1.1" "80").2.proxies.length = 1 :=
  ⟨C5_addProxy_spec.1 _ 0 "1.1.1.1" "80"
      ⟨ProxyItem.mk "1.1.1.1" "80" 0 5 10 0 0, by simp, rfl⟩,
   (C5_addProxy_spec.2.2.2 _ 0 1 "1.1.1.1" "80" rfl).1,
   (C5_addProxy_spec.2.2.2 _ 0 1 "1.1.1.1" "80" rfl).2⟩

/-- C9 counterexample: contrary to the claim, the chained setter
`SetMaxUseCount` stores a non-positive value verbatim instead of falling
back to the default 5. -/
theorem C9_setters_counterexample :
    ((New (Config.mk "u" 0 0 0 false false)).SetMaxUseCount (-1)).maxUseCount = -1 ∧
    ((New (Config.mk "u" 0 0 0 false false)).SetMaxUseCount (-1)).maxUseCount ≠ 5 :=
  ⟨rfl, by decide⟩

/-- C9 amended: `New` replaces each non-positive numeric option with its
default (5, 180, 3) and keeps positive values, while the chained setters
`SetMaxUseCount` / `SetExpireSeconds` / `SetMinPoolSize` store the given
value unchanged, applying no fallback. -/
theorem C9_defaults_amended (cfg : Config) (p : ProxyPool) (c s z : Int) :
    (cfg.maxUseCount ≤ 0 → (New cfg).maxUseCount = 5) ∧
    (0 < cfg.maxUseCount → (New cfg).maxUseCount = cfg.maxUseCount) ∧
    (cfg.expireSeconds ≤ 0 → (New cfg).expireSeconds = 180) ∧
    (0 < cfg.expireSeconds → (New cfg).expireSeconds = cfg.expireSeconds) ∧
    (cfg.minPoolSize ≤ 0 → (New cfg).minPoolSize = 3) ∧
    (0 < cfg.minPoolSize → (New cfg).minPoolSize = cfg.minPoolSize) ∧
    (p.SetMaxUseCount c).maxUseCount = c ∧
    (p.SetExpireSeconds s).expireSeconds = s ∧
    (p.SetMinPoolSize z).minPoolSize = z := by
  refine ⟨?_, ?_, ?_, ?_, ?_, ?_, rfl, rfl, rfl⟩ <;>
    (intro h; unfold New; dsimp only; split_ifs <;> simp_all <;> omega)

theorem C9_defaults_amended_witness :
    (New (Config.mk "u" 0 (-2) 0 false false)).maxUseCount = 5 ∧
    (New (Config.mk "u" 0 (-2) 0 false false)).expireSeconds = 180 ∧
    (New (Config.mk "u" 0 (-2) 0 false false)).minPoolSize = 3 ∧
    (New (Config.mk "u" 9 9 9 false false)).maxUseCount = 9 ∧
    ((ProxyPool.mk [] "u" 5 180 3 false false 0).SetExpireSeconds 7).expireSeconds = 7 :=
  ⟨(C9_defaults_amended (Config.mk "u" 0 (-2) 0 false false)
      (ProxyPool.mk [] "u" 5 180 3 false false 0) 0 7 0).1 (by decide),
   (C9_defaults_amended (Config.mk "u" 0 (-2) 0 false false)
      (ProxyPool.mk [] "u" 5 180 3 false false 0) 0 7 0).2.2.1 (by decide),
   (C9_defaults_amended (Config.mk "u" 0 (-2) 0 false false)
      (ProxyPool.mk [] "u" 5 180 3 false false 0) 0 7 0).2.2.2.2.1 (by decide),
   (C9_defaults_amended (Config.mk "u" 9 9 9 false false)
      (ProxyPool.mk [] "u" 5 180 3 false false 0) 0 7 0).2.1 (by decide),
   (C9_defaults_amended (Config.mk "u" 0 (-2) 0 false false)
      (ProxyPool.mk [] "u" 5 180 3 false false 0) 0 7 0).2.2.2.2.2.2.2.1⟩

/-- C10 counterexample: an entry exactly at its expiry instant that has
also reached its use-limit is counted by `GetStats` in `maxUsed`, so it
is not counted in none of Available/Expired/MaxUsed. -/
theorem C10_stats_counterexample :
    (ProxyPool.mk [ProxyItem.mk "1.1.1.1" "80" 5 5 100 0 0] "u" 5 180 3 false false 0).GetStats
      100 = Stats.mk 1 0 0 1 := by
  decide

/-- C10 amended: at the exact expiry instant an entry reports both
`IsAvailable` false and `IsExpired` false; a single-entry pool whose
entry is exactly at expiry with use-count below the limit is counted in
Total but in none of Available, Expired, MaxUsed; one past expiry and at
its use-limit is counted in both Expired and MaxUsed. -/
theorem C10_stats_amended (pool : ProxyPool) (q : ProxyItem) (now : Int) :
    (q.IsAvailable q.expireTime = false) ∧
    (q.IsExpired q.expireTime = false) ∧
    (pool.proxies = [q] → q.expireTime = now → q.usedCount < q.maxUseCount →
      pool.GetStats now = Stats.mk 1 0 0 0) ∧
    (pool.proxies = [q] → q.expireTime < now → q.maxUseCount ≤ q.usedCount →
      pool.GetStats now = Stats.mk 1 0 1 1) := by
  refine ⟨?_, ?_, fun hp he hu => ?_, fun hp he hu => ?_⟩
  · simp [ProxyItem.IsAvailable]
  · simp [ProxyItem.IsExpired]
  · unfold ProxyPool.GetStats
    simp [hp, ProxyItem.IsAvailable, ProxyItem.IsExpired, ProxyItem.IsMaxUsed,
      List.countP_cons]
    omega
  · unfold ProxyPool.GetStats
    simp [hp, ProxyItem.IsAvailable, ProxyItem.IsExpired, ProxyItem.IsMaxUsed,
      List.countP_cons]
    omega

theorem C10_stats_amended_witness :
    ((ProxyItem.mk "1.1.1.1" "80" 0 5 100 0 0).IsAvailable 100 = false) ∧
    ((ProxyItem.mk "1.1.1.1" "80" 0 5 100 0 0).IsExpired 100 = false) ∧
    (ProxyPool.mk [ProxyItem.mk "1.1.1.1" "80" 0 5 100 0 0] "u" 5 180 3 false false 0).GetStats
      100 = Stats.mk 1 0 0 0 ∧
    (ProxyPool.mk [ProxyItem.mk "1.1.1.1" "80" 5 5 100 0 0] "u" 5 180 3 false false 0).GetStats
      101 = Stats.mk 1 0 1 1 :=
  ⟨(C10_stats_amended (ProxyPool.mk [] "u" 5 180 3 false false 0)
      (ProxyItem.mk "1.1.1.1" "80" 0 5 100 0 0) 100).1,
   (C10_stats_amended (ProxyPool.mk [] "u" 5 180 3 false false 0)
      (ProxyItem.mk "1.1.1.1" "80" 0 5 100 0 0) 100).2.1,
   (C10_stats_amended
      (ProxyPool.mk [ProxyItem.mk "1.1.1.1" "80" 0 5 100 0 0] "u" 5 180 3 false false 0)
      (ProxyItem.mk "1.1.1.1" "80" 0 5 100 0 0) 100).2.2.1 rfl rfl (by decide),
   (C10_stats_amended
      (ProxyPool.mk [ProxyItem.mk "1.1.1.1" "80" 5 5 100 0 0] "u" 5 180 3 false false 0)
      (ProxyItem.mk "1.1.1.1" "80" 5 5 100 0 0) 101).2.2.2 rfl (by decide) (by decide)⟩

/-- C6 counterexample: with no API URL and no fetch function configured,
a `Refresh` call made while another refresh is in flight returns the
`apiURLEmpty` error rather than nil, because the unconfigured guard is
checked before the try-lock. -/
theorem C6_refresh_counterexample :
    ((ProxyPool.mk [] "" 5 180 3 false true 0).Refresh 0 true none).1
      = some GoErr.apiURLEmpty := rfl

/-- C6 amended: provided the pool has an API URL or a fetch function
configured, a `Refresh` call made while another refresh is in flight
returns immediately with a nil error, performs no fetch or insertion and
emits no callback; and when the fetch function itself returns an error,
`Refresh` reports that error to the on-replenish callback (when one is
set), returns it, and leaves the proxy collection unchanged. -/
theorem C6_refresh_amended (p : ProxyPool) (now : Int) (f : Option FetchFunc) :
    ((p.apiURL ≠ "" ∨ f.isSome = true) → p.Refresh now true f = (none, p, [])) ∧
    (∀ (ff : FetchFunc) (e : GoErr), f = some ff → ff p.apiURL = .error e →
      p.Refresh now false f =
        (some e, p,
          if p.hasOnRefresh then [Event.onRefreshCb 0 (some e)] else [])) := by
  constructor
  · intro h
    have hg : (p.apiURL == "" && f.isNone) = false := by
      rcases h with h | h
      · simp [h]
      · cases f with
        | none => simp at h
        | some ff => simp
    unfold ProxyPool.Refresh
    rw [hg]
    simp
  · intro ff e hf he
    subst hf
    unfold ProxyPool.Refresh
    simp [he]

theorem C6_refresh_amended_witness :
    ((ProxyPool.mk [] "u" 5 180 3 false true 0).Refresh 0 true none) =
      (none, ProxyPool.mk [] "u" 5 180 3 false true 0, []) ∧
    ((ProxyPool.mk [] "u" 5 180 3 false true 0).Refresh 0 false
        (some (fun _ => Except.error (GoErr.fetchFailed "boom")))) =
      (some (GoErr.fetchFailed "boom"), ProxyPool.mk [] "u" 5 180 3 false true 0,
        [Event.onRefreshCb 0 (some (GoErr.fetchFailed "boom"))]) :=
  ⟨(C6_refresh_amended (ProxyPool.mk [] "u" 5 180 3 false true 0) 0 none).1
      (Or.inl (by decide)),
   (C6_refresh_amended (ProxyPool.mk [] "u" 5 180 3 false true 0) 0
      (some (fun _ => Except.error (GoErr.fetchFailed "boom")))).2
      (fun _ => Except.error (GoErr.fetchFailed "boom")) (GoErr.fetchFailed "boom") rfl rfl⟩

/-- C7 counterexample: a `Refresh` call that is skipped because another
refresh is already in flight returns without invoking the on-replenish
callback at all, even with the callback configured, so it is not true
that every call invokes the callback exactly once. -/
theorem C7_callback_counterexample :
    ((ProxyPool.mk [] "u" 5 180 3 false true 0).Refresh 0 true
        (some (fun _ => Except.ok []))).2.2 = [] := rfl

/-- C7 amended: every `Refresh` call that passes the configuration
guard, acquires the refresh lock, and has an on-replenish callback
configured invokes the callback exactly once, with either a
(non-negative) count of newly inserted entries and no error, or a zero
count and a non-nil error. -/
theorem C7_callback_amended (p : ProxyPool) (now : Int) (f : Option FetchFunc)
    (hguard : ¬(p.apiURL = "" ∧ f = none)) (hcb : p.hasOnRefresh = true) :
    ∃ (n : Nat) (err : Option GoErr),
      (p.Refresh now false f).2.2 = [Event.onRefreshCb n err] ∧
      (err = none ∨ (n = 0 ∧ err ≠ none)) := by
  cases f with
  | none =>
      have hne : p.apiURL ≠ "" := fun h => hguard ⟨h, rfl⟩
      refine ⟨0, some GoErr.setFetchFuncHint, ?_, Or.inr ⟨rfl, by simp⟩⟩
      unfold ProxyPool.Refresh
      simp [hne, hcb]
  | some ff =>
      cases hfr : ff p.apiURL with
      | error e =>
          refine ⟨0, some e, ?_, Or.inr ⟨rfl, by simp⟩⟩
          unfold ProxyPool.Refresh
          simp [hfr, hcb]
      | ok addrs =>
          have ht : (p.Refresh now false (some ff)).2.2 =
              [Event.onRefreshCb
                ((addrs.foldl
                  (fun (acc : Nat × ProxyPool) (addr : ProxyAddr) =>
                    (if (acc.2.AddProxy now addr.ip addr.port).1 then acc.1 + 1
                     else acc.1,
                     (acc.2.AddProxy now addr.ip addr.port).2)) (0, p)).1) none] := by
            unfold ProxyPool.Refresh
            simp [hfr, hcb]
          exact ⟨_, none, ht, Or.inl rfl⟩

theorem C7_callback_amended_witness :
    ((ProxyPool.mk [] "u" 5 180 3 false true 0).Refresh 0 false
        (some (fun _ => Except.ok [ProxyAddr.mk "1.1.1.1" "80"]))).2.2 =
      [Event.onRefreshCb 1 none] := by
  obtain ⟨n, err, hev, hshape⟩ :=
    C7_callback_amended (ProxyPool.mk [] "u" 5 180 3 false true 0) 0
      (some (fun _ => Except.ok [ProxyAddr.mk "1.1.1.1" "80"]))
      (by intro h; exact absurd h.1 (by decide)) rfl
  rw [hev]
  have : ((ProxyPool.mk [] "u" 5 180 3 false true 0).Refresh 0 false
      (some (fun _ => Except.ok [ProxyAddr.mk "1.1.1.1" "80"]))).2.2 =
      [Event.onRefreshCb 1 none] := by decide
  rw [hev] at this
  exact this

/-- `Refresh` emits either no event or a single on-replenish callback. -/
theorem refresh_events_shape (p : ProxyPool) (now : Int) (inF : Bool)
    (f : Option FetchFunc) :
    (p.Refresh now inF f).2.2 = [] ∨
    ∃ n err, (p.Refresh now inF f).2.2 = [Event.onRefreshCb n err] := by
  unfold ProxyPool.Refresh
  split
  · exact Or.inl rfl
  · split
    · exact Or.inl rfl
    · dsimp only
      split
      · dsimp only
        split
        · exact Or.inr ⟨_, _, rfl⟩
        · exact Or.inl rfl
      · dsimp only
        split
        · exact Or.inr ⟨_, _, rfl⟩
        · exact Or.inl rfl

/-- `Refresh` never emits an on-acquire callback event. -/
theorem refresh_no_onProxyGet (p : ProxyPool) (now : Int) (inF : Bool)
    (f : Option FetchFunc) :
    ∀ j, Event.onProxyGetCb j ∉ (p.Refresh now inF f).2.2 := by
  intro j
  rcases refresh_events_shape p now inF f with h | ⟨n, err, h⟩ <;> rw [h] <;> simp

/-- `Refresh` emits neither a synchronous-call marker nor a goroutine
launch marker. -/
theorem refresh_event_zero (p : ProxyPool) (now : Int) (inF : Bool)
    (f : Option FetchFunc) :
    (p.Refresh now inF f).2.2.count Event.refreshCall = 0 ∧
    (p.Refresh now inF f).2.2.count Event.goRefresh = 0 := by
  rcases refresh_events_shape p now inF f with h | ⟨n, err, h⟩ <;> rw [h] <;>
    simp [List.count_cons, beq_iff_eq]

/-- The replenishment branch of `Get` never emits an on-acquire event. -/
theorem getReplenish_no_onProxyGet (p : ProxyPool) (now : Int) (inF : Bool)
    (f : Option FetchFunc) :
    ∀ j, Event.onProxyGetCb j ∉ (p.getReplenish now inF f).2 := by
  intro j
  unfold ProxyPool.getReplenish
  split
  · dsimp only
    intro hmem
    rcases List.mem_cons.mp hmem with h | h
    · exact Event.noConfusion h
    · exact refresh_no_onProxyGet p now inF f j h
  · split
    · simp
    · simp

/-- The selection half of `Get` only ever appends events to the ones it
was handed, and what it appends contains no refresh markers. -/
theorem selectStage_events (p : ProxyPool) (now : Int) (evts : List Event) :
    ∃ t, (p.selectStage now evts).2.2 = evts ++ t ∧
      t.count Event.refreshCall = 0 ∧ t.count Event.goRefresh = 0 := by
  unfold ProxyPool.selectStage
  dsimp only
  split
  · exact ⟨[], by simp⟩
  · split
    · split
      · exact ⟨_, rfl, by simp [List.count_cons, beq_iff_eq],
          by simp [List.count_cons, beq_iff_eq]⟩
      · exact ⟨[], by simp, by simp, by simp⟩
    · exact ⟨[], by simp⟩

/-- Error characterisation of the selection half of `Get`: an error is
always `noAvailableProxy`, leaves the collection untouched, adds no
event, and occurs exactly when the available list is empty or the
claim-use attempt on the selected item fails. -/
theorem selectStage_spec (p : ProxyPool) (now : Int) (evts : List Event) :
    (∀ e q ev2, p.selectStage now evts = (.error e, q, ev2) →
      e = GoErr.noAvailableProxy ∧ q.proxies = p.proxies ∧ ev2 = evts) ∧
    ((∃ e q ev2, p.selectStage now evts = (.error e, q, ev2)) ↔
      availableIdx now p.proxies = [] ∨
      ((p.proxies.getD ((availableIdx now p.proxies).getD
          (p.roundRobinIdx % (availableIdx now p.proxies).length) 0)
        default).IncrementUseCount now).1 = false) := by
  unfold ProxyPool.selectStage
  by_cases hav : (availableIdx now p.proxies).length = 0
  · rw [if_pos hav]
    have hA : availableIdx now p.proxies = [] := List.length_eq_zero.mp hav
    constructor
    · intro e q ev2 h
      injection h with h1 h23
      injection h23 with h2 h3
      injection h1 with he
      exact ⟨he.symm, by rw [← h2], h3.symm⟩
    · exact ⟨fun _ => Or.inl hA, fun _ => ⟨_, _, _, rfl⟩⟩
  · rw [if_neg hav]
    dsimp only
    by_cases hinc : ((p.proxies.getD ((availableIdx now p.proxies).getD
        (p.roundRobinIdx % (availableIdx now p.proxies).length) 0)
        default).IncrementUseCount now).1 = true
    · rw [if_pos hinc]
      refine ⟨fun e q ev2 h => absurd h (by simp), ?_, ?_⟩
      · rintro ⟨e, q, ev2, h⟩
        exact absurd h (by simp)
      · intro hd
        rcases hd with hd | hd
        · exact absurd (by rw [hd]; rfl) hav
        · rw [hd] at hinc
          exact Bool.noConfusion hinc
    · rw [if_neg hinc]
      have hfalse : ((p.proxies.getD ((availableIdx now p.proxies).getD
          (p.roundRobinIdx % (availableIdx now p.proxies).length) 0)
          default).IncrementUseCount now).1 = false := by simpa using hinc
      constructor
      · intro e q ev2 h
        injection h with h1 h23
        injection h23 with h2 h3
        injection h1 with he
        exact ⟨he.symm, by rw [← h2], h3.symm⟩
      · exact ⟨fun _ => Or.inr hfalse, fun _ => ⟨_, _, _, rfl⟩⟩

/-- C2: after the cleanup, an empty collection makes `Get` perform
exactly one synchronous `Refresh` and run the selection on the refreshed
pool; a non-empty collection below the configured minimum pool size
makes `Get` launch the refresh asynchronously (exactly one goroutine
launch, no synchronous refresh call, no state change from it) and
proceed straight to selection. -/
theorem C2_get_refresh_policy (p : ProxyPool) (now : Int) (inFlight : Bool)
    (f : Option FetchFunc) :
    ((p.cleanupUnsafe now).proxies = [] →
      (p.Get now inFlight f =
        ((p.cleanupUnsafe now).Refresh now inFlight f).2.1.selectStage now
          (Event.refreshCall :: ((p.cleanupUnsafe now).Refresh now inFlight f).2.2) ∧
       (p.Get now inFlight f).2.2.count Event.refreshCall = 1 ∧
       (p.Get now inFlight f).2.2.count Event.goRefresh = 0)) ∧
    ((p.cleanupUnsafe now).proxies ≠ [] →
      ((p.cleanupUnsafe now).proxies.length : Int) < (p.cleanupUnsafe now).minPoolSize →
      (p.Get now inFlight f = (p.cleanupUnsafe now).selectStage now [Event.goRefresh] ∧
       (p.Get now inFlight f).2.2.count Event.goRefresh = 1 ∧
       (p.Get now inFlight f).2.2.count Event.refreshCall = 0)) := by
  constructor
  · intro hp
    have hrp : (p.cleanupUnsafe now).getReplenish now inFlight f =
        (((p.cleanupUnsafe now).Refresh now inFlight f).2.1,
         Event.refreshCall :: ((p.cleanupUnsafe now).Refresh now inFlight f).2.2) := by
      unfold ProxyPool.getReplenish
      rw [if_pos (by simp [hp])]
    have hG : p.Get now inFlight f =
        ((p.cleanupUnsafe now).Refresh now inFlight f).2.1.selectStage now
          (Event.refreshCall :: ((p.cleanupUnsafe now).Refresh now inFlight f).2.2) := by
      unfold ProxyPool.Get
      dsimp only
      rw [hrp]
    obtain ⟨t, ht, ht1, ht2⟩ := selectStage_events
      (((p.cleanupUnsafe now).Refresh now inFlight f).2.1) now
      (Event.refreshCall :: ((p.cleanupUnsafe now).Refresh now inFlight f).2.2)
    have hz := refresh_event_zero (p.cleanupUnsafe now) now inFlight f
    refine ⟨hG, ?_, ?_⟩ <;> rw [hG, ht]
    · simp [List.count_append, List.count_cons, ht1, hz.1]
    · simp [List.count_append, List.count_cons, ht2, hz.2, beq_iff_eq]
  · intro hp hlt
    have hrp : (p.cleanupUnsafe now).getReplenish now inFlight f =
        (p.cleanupUnsafe now, [Event.goRefresh]) := by
      unfold ProxyPool.getReplenish
      rw [if_neg (by simpa [List.length_eq_zero] using hp), if_pos hlt]
    have hG : p.Get now inFlight f =
        (p.cleanupUnsafe now).selectStage now [Event.goRefresh] := by
      unfold ProxyPool.Get
      dsimp only
      rw [hrp]
    obtain ⟨t, ht, ht1, ht2⟩ := selectStage_events (p.cleanupUnsafe now) now
      [Event.goRefresh]
    refine ⟨hG, ?_, ?_⟩ <;> rw [hG, ht]
    · simp [List.count_append, List.count_cons, ht2, beq_iff_eq]
    · simp [List.count_append, List.count_cons, ht1, beq_iff_eq]

theorem C2_get_refresh_policy_witness :
    (((ProxyPool.mk [] "u" 5 180 3 false false 0).Get 0 false none).2.2.count
        Event.refreshCall = 1 ∧
     ((ProxyPool.mk [] "u" 5 180 3 false false 0).Get 0 false none).2.2.count
        Event.goRefresh = 0) ∧
    (((ProxyPool.mk [ProxyItem.mk "1.1.1.1" "80" 0 5 10 0 0] "u" 5 180 3 false
        false 0).Get 0 false none).2.2.count Event.goRefresh = 1) :=
  ⟨((C2_get_refresh_policy (ProxyPool.mk [] "u" 5 180 3 false false 0) 0 false
      none).1 rfl).2,
   ((C2_get_refresh_policy
      (ProxyPool.mk [ProxyItem.mk "1.1.1.1" "80" 0 5 10 0 0] "u" 5 180 3 false
        false 0) 0 false none).2 (by decide) (by decide)).2.1⟩

/-- C3: `Get` can only fail with `noAvailableProxy`; it fails exactly
when the post-replenishment available list is empty or the claim-use
attempt on the selected item fails; and on failure it does not retry any
other candidate: the collection is left untouched and no on-acquire
callback is invoked. -/
theorem C3_get_errors (p : ProxyPool) (now : Int) (inFlight : Bool)
    (f : Option FetchFunc) :
    let p2 := ((p.cleanupUnsafe now).getReplenish now inFlight f).1
    let avail := availableIdx now p2.proxies
    let sel := p2.proxies.getD (avail.getD (p2.roundRobinIdx % avail.length) 0) default
    (∀ e q evts, p.Get now inFlight f = (.error e, q, evts) →
      e = GoErr.noAvailableProxy) ∧
    ((∃ e q evts, p.Get now inFlight f = (.error e, q, evts)) ↔
      avail = [] ∨ (sel.IncrementUseCount now).1 = false) ∧
    (∀ e q evts, p.Get now inFlight f = (.error e, q, evts) →
      q.proxies = p2.proxies ∧ ∀ j, Event.onProxyGetCb j ∉ evts) := by
  intro p2 avail sel
  have hG : p.Get now inFlight f =
      p2.selectStage now ((p.cleanupUnsafe now).getReplenish now inFlight f).2 := rfl
  obtain ⟨hs1, hs2⟩ :=
    selectStage_spec p2 now ((p.cleanupUnsafe now).getReplenish now inFlight f).2
  refine ⟨?_, ?_, ?_⟩
  · intro e q evts h
    rw [hG] at h
    exact (hs1 e q evts h).1
  · constructor
    · rintro ⟨e, q, evts, h⟩
      rw [hG] at h
      exact hs2.mp ⟨e, q, evts, h⟩
    · intro hd
      obtain ⟨e, q, evts, h⟩ := hs2.mpr hd
      exact ⟨e, q, evts, by rw [hG]; exact h⟩
  · intro e q evts h
    rw [hG] at h
    obtain ⟨_, hq, hev⟩ := hs1 e q evts h
    refine ⟨hq, ?_⟩
    rw [hev]
    exact getReplenish_no_onProxyGet (p.cleanupUnsafe now) now inFlight f

theorem C3_get_errors_witness :
    GoErr.noAvailableProxy = GoErr.noAvailableProxy ∧
    (∃ e q evts,
      (ProxyPool.mk [] "" 5 180 3 false false 0).Get 0 false none =
        (.error e, q, evts)) ∧
    (∀ j, Event.onProxyGetCb j ∉ [Event.refreshCall]) :=
  ⟨(C3_get_errors (ProxyPool.mk [] "" 5 180 3 false false 0) 0 false none).1
      GoErr.noAvailableProxy (ProxyPool.mk [] "" 5 180 3 false false 0)
      [Event.refreshCall] rfl,
   ((C3_get_errors (ProxyPool.mk [] "" 5 180 3 false false 0) 0 false none).2.1).mpr
      (Or.inl rfl),
   ((C3_get_errors (ProxyPool.mk [] "" 5 180 3 false false 0) 0 false none).2.2
      GoErr.noAvailableProxy (ProxyPool.mk [] "" 5 180 3 false false 0)
      [Event.refreshCall] rfl).2⟩

/-- One `Get` step against a pool of three available items: the cleanup
keeps all of them, no synchronous refresh touches the state, the
selection picks position `roundRobinIdx % 3`, claims a use on that item
(writing it back in place) and advances the cursor by one. -/
theorem get_step3 (p : ProxyPool) (now : Int) (inF : Bool) (f : Option FetchFunc)
    (hlen : p.proxies.length = 3)
    (hav : ∀ x ∈ p.proxies, now < x.expireTime ∧ x.usedCount < x.maxUseCount) :
    ∃ item evts, p.Get now inF f =
      (.ok (p.roundRobinIdx % 3, item),
       { p with proxies := p.proxies.set (p.roundRobinIdx % 3) item,
                roundRobinIdx := p.roundRobinIdx + 1 },
       evts) := by
  have havb : ∀ x ∈ p.proxies, x.IsAvailable now = true := by
    intro x hx
    have h := hav x hx
    simp only [ProxyItem.IsAvailable, Bool.and_eq_true, decide_eq_true_eq]
    exact ⟨h.1, h.2⟩
  have hfil : p.proxies.filter (fun q => q.IsAvailable now) = p.proxies :=
    List.filter_eq_self.mpr havb
  have h1 : p.cleanupUnsafe now = p := by
    unfold ProxyPool.cleanupUnsafe
    rw [hfil]
  have h2 : ∃ ev1, p.getReplenish now inF f = (p, ev1) := by
    unfold ProxyPool.getReplenish
    rw [if_neg (by omega)]
    split
    · exact ⟨_, rfl⟩
    · exact ⟨_, rfl⟩
  have hpredi : ∀ i, i < p.proxies.length →
      (p.proxies.getD i default).IsAvailable now = true := by
    intro i hi
    have hmem : p.proxies.getD i default ∈ p.proxies := by
      rw [List.getD_eq_getElem p.proxies default hi]
      exact List.getElem_mem hi
    exact havb _ hmem
  have h3 : availableIdx now p.proxies = [0, 1, 2] := by
    unfold availableIdx
    rw [hlen]
    rw [show List.range 3 = [0, 1, 2] from rfl]
    rw [List.filter_eq_self]
    intro x hx
    rcases List.mem_cons.mp hx with rfl | hx
    · exact hpredi 0 (by omega)
    rcases List.mem_cons.mp hx with rfl | hx
    · exact hpredi 1 (by omega)
    rcases List.mem_cons.mp hx with rfl | hx
    · exact hpredi 2 (by omega)
    · exact absurd hx (List.not_mem_nil x)
  have hjj : ([0, 1, 2] : List Nat).getD
      (p.roundRobinIdx % ([0, 1, 2] : List Nat).length) 0 = p.roundRobinIdx % 3 := by
    have h : p.roundRobinIdx % 3 = 0 ∨ p.roundRobinIdx % 3 = 1 ∨
        p.roundRobinIdx % 3 = 2 := by omega
    rcases h with h | h | h <;>
      rw [show (([0, 1, 2] : List Nat).length) = 3 from rfl, h] <;> rfl
  have hsel : (p.proxies.getD (p.roundRobinIdx % 3) default).usedCount <
      (p.proxies.getD (p.roundRobinIdx % 3) default).maxUseCount := by
    have hi : p.roundRobinIdx % 3 < p.proxies.length := by omega
    have hmem : p.proxies.getD (p.roundRobinIdx % 3) default ∈ p.proxies := by
      rw [List.getD_eq_getElem p.proxies default hi]
      exact List.getElem_mem hi
    exact (hav _ hmem).2
  obtain ⟨ev1, hev1⟩ := h2
  refine ⟨{ (p.proxies.getD (p.roundRobinIdx % 3) default) with
      usedCount := (p.proxies.getD (p.roundRobinIdx % 3) default).usedCount + 1,
      lastUseTime := now },
    ev1 ++ (if p.hasOnProxyGet then
      [Event.onProxyGetCb (p.roundRobinIdx % 3)] else []), ?_⟩
  unfold ProxyPool.Get
  dsimp only
  rw [h1, hev1]
  dsimp only
  unfold ProxyPool.selectStage
  dsimp only
  rw [h3]
  rw [if_neg (by simp)]
  rw [hjj]
  unfold ProxyItem.IncrementUseCount
  have hneg : ¬((p.proxies.getD (p.roundRobinIdx % 3) default).usedCount ≥
      (p.proxies.getD (p.roundRobinIdx % 3) default).maxUseCount) := by omega
  rw [if_neg hneg]
  rw [if_pos rfl]

/-- Selection positions over a run of sequential `Get` calls: as long as
every intermediate pool's three items stay available, the `n` calls all
succeed and return the successive cursor values modulo 3. -/
theorem getSeq_roundRobin (now : Int) (inF : Bool) (f : Option FetchFunc) :
    ∀ (n : Nat) (p : ProxyPool), p.proxies.length = 3 →
    (∀ k, k < n → ∀ x ∈ ((p.getSeq now inF f k).2).proxies,
        now < x.expireTime ∧ x.usedCount < x.maxUseCount) →
    (p.getSeq now inF f n).1.map (fun r => (Except.toOption r).map Prod.fst) =
      (List.range n).map (fun k => some ((p.roundRobinIdx + k) % 3))
  | 0, p, hlen, H => by rfl
  | (n + 1), p, hlen, H => by
      have hav : ∀ x ∈ p.proxies, now < x.expireTime ∧
          x.usedCount < x.maxUseCount := by
        intro x hx
        exact H 0 (by omega) x hx
      obtain ⟨item, evts, hG⟩ := get_step3 p now inF f hlen hav
      have hstep : p.getSeq now inF f (n + 1) =
          ((p.Get now inF f).1 :: ((p.Get now inF f).2.1.getSeq now inF f n).1,
           ((p.Get now inF f).2.1.getSeq now inF f n).2) := rfl
      have hlen1 : (({ p with
          proxies := p.proxies.set (p.roundRobinIdx % 3) item,
          roundRobinIdx := p.roundRobinIdx + 1 } : ProxyPool)).proxies.length = 3 := by
        dsimp only
        rw [List.length_set p.proxies _ item]
        exact hlen
      have hH1 : ∀ k, k < n → ∀ x ∈ ((({ p with
          proxies := p.proxies.set (p.roundRobinIdx % 3) item,
          roundRobinIdx := p.roundRobinIdx + 1 } : ProxyPool)).getSeq now inF f
            k).2.proxies,
          now < x.expireTime ∧ x.usedCount < x.maxUseCount := by
        intro k hk x hx
        apply H (k + 1) (by omega) x
        have hrw : (p.getSeq now inF f (k + 1)).2 =
            ((p.Get now inF f).2.1.getSeq now inF f k).2 := rfl
        rw [hrw, hG]
        exact hx
      have IH := getSeq_roundRobin now inF f n
        ({ p with
            proxies := p.proxies.set (p.roundRobinIdx % 3) item,
            roundRobinIdx := p.roundRobinIdx + 1 }) hlen1 hH1
      rw [hstep]
      simp only [List.map_cons]
      rw [hG]
      dsimp only
      rw [List.range_succ_eq_map, List.map_cons, List.map_map]
      simp only [List.cons.injEq]
      refine ⟨?_, ?_⟩
      · show some (p.roundRobinIdx % 3) = some ((p.roundRobinIdx + 0) % 3)
        rw [Nat.add_zero]
      · rw [IH]
        apply List.map_congr_left
        intro k hk
        show some ((p.roundRobinIdx + 1 + k) % 3) =
          some ((p.roundRobinIdx + (k + 1)) % 3)
        congr 1
        omega

/-- C8: with three entries that stay available at every step and no
churn, six sequential `Get` calls return the entry positions given by
the successive round-robin cursor values modulo 3 — a cyclic order — and
each of the three positions is returned exactly twice. -/
theorem C8_roundRobin (p : ProxyPool) (now : Int) (inF : Bool) (f : Option FetchFunc)
    (hlen : p.proxies.length = 3)
    (H : ∀ k, k < 6 → ∀ x ∈ ((p.getSeq now inF f k).2).proxies,
        now < x.expireTime ∧ x.usedCount < x.maxUseCount) :
    ((p.getSeq now inF f 6).1.map (fun r => (Except.toOption r).map Prod.fst) =
      [some (p.roundRobinIdx % 3), some ((p.roundRobinIdx + 1) % 3),
       some ((p.roundRobinIdx + 2) % 3), some ((p.roundRobinIdx + 3) % 3),
       some ((p.roundRobinIdx + 4) % 3), some ((p.roundRobinIdx + 5) % 3)]) ∧
    (∀ i, i < 3 →
      ((p.getSeq now inF f 6).1.map
        (fun r => (Except.toOption r).map Prod.fst)).count (some i) = 2) := by
  have hmain := getSeq_roundRobin now inF f 6 p hlen H
  have hr6 : (List.range 6).map (fun k => some ((p.roundRobinIdx + k) % 3)) =
      [some ((p.roundRobinIdx + 0) % 3), some ((p.roundRobinIdx + 1) % 3),
       some ((p.roundRobinIdx + 2) % 3), some ((p.roundRobinIdx + 3) % 3),
       some ((p.roundRobinIdx + 4) % 3), some ((p.roundRobinIdx + 5) % 3)] := rfl
  constructor
  · rw [hmain, hr6, Nat.add_zero]
  · intro i hi
    rw [hmain, hr6]
    have h : p.roundRobinIdx % 3 = 0 ∨ p.roundRobinIdx % 3 = 1 ∨
        p.roundRobinIdx % 3 = 2 := by omega
    rcases h with h | h | h
    · have e0 : (p.roundRobinIdx + 0) % 3 = 0 := by omega
      have e1 : (p.roundRobinIdx + 1) % 3 = 1 := by omega
      have e2 : (p.roundRobinIdx + 2) % 3 = 2 := by omega
      have e3 : (p.roundRobinIdx + 3) % 3 = 0 := by omega
      have e4 : (p.roundRobinIdx + 4) % 3 = 1 := by omega
      have e5 : (p.roundRobinIdx + 5) % 3 = 2 := by omega
      rw [e0, e1, e2, e3, e4, e5]
      interval_cases i <;> rfl
    · have e0 : (p.roundRobinIdx + 0) % 3 = 1 := by omega
      have e1 : (p.roundRobinIdx + 1) % 3 = 2 := by omega
      have e2 : (p.roundRobinIdx + 2) % 3 = 0 := by omega
      have e3 : (p.roundRobinIdx + 3) % 3 = 1 := by omega
      have e4 : (p.roundRobinIdx + 4) % 3 = 2 := by omega
      have e5 : (p.roundRobinIdx + 5) % 3 = 0 := by omega
      rw [e0, e1, e2, e3, e4, e5]
      interval_cases i <;> rfl
    · have e0 : (p.roundRobinIdx + 0) % 3 = 2 := by omega
      have e1 : (p.roundRobinIdx + 1) % 3 = 0 := by omega
      have e2 : (p.roundRobinIdx + 2) % 3 = 1 := by omega
      have e3 : (p.roundRobinIdx + 3) % 3 = 2 := by omega
      have e4 : (p.roundRobinIdx + 4) % 3 = 0 := by omega
      have e5 : (p.roundRobinIdx + 5) % 3 = 1 := by omega
      rw [e0, e1, e2, e3, e4, e5]
      interval_cases i <;> rfl

theorem C8_roundRobin_witness :
    ((ProxyPool.mk [ProxyItem.mk "a" "1" 0 5 100 0 0,
        ProxyItem.mk "b" "2" 0 5 100 0 0, ProxyItem.mk "c" "3" 0 5 100 0 0]
        "u" 5 180 3 false false 0).getSeq 0 false none 6).1.map
      (fun r => (Except.toOption r).map Prod.fst) =
      [some 0, some 1, some 2, some 0, some 1, some 2] :=
  (C8_roundRobin
    (ProxyPool.mk [ProxyItem.mk "a" "1" 0 5 100 0 0,
      ProxyItem.mk "b" "2" 0 5 100 0 0, ProxyItem.mk "c" "3" 0 5 100 0 0]
      "u" 5 180 3 false false 0) 0 false none rfl (by decide)).1

end Proxypool
